import Mathlib

/-!
# Verification of the disaster-signal classifier and alert aggregator

Shallow embedding of the heuristic disaster-detection core:

* `src/src/lib/socialMediaAnalysis.ts` — the social-media text analyzer
  (`SocialMediaAnalyzer`): tokenization, keyword-based category selection,
  location extraction, urgency scoring, confidence/severity arithmetic, and
  the keyed merge/escalation aggregator `analyzePosts`.
* the satellite image analyzer (`SatelliteImageAnalyzer`): channel-mean
  classification cascade, analysis indices, affected-area estimate and
  severity.

Modelling conventions:

* JS strings are `List Char`; `String.toLowerCase` is `Char.toLower` mapped
  over the list; `String.includes` is a substring test on char lists.
* JS numbers are `ℚ` (exact rational arithmetic); integer-valued quantities
  (counts, report counts) are `ℕ`; `Math.ceil`/`Math.floor` are `Int.ceil`/
  `Int.floor`.
* The external `sentiment` npm library is not part of the repository; its
  score is an explicit function parameter `sentimentOf : List Char → ℚ`.
* The global unseeded `Math.random()` is modelled as an explicitly threaded
  stream-with-position `RandState`; every call consumes one draw, exactly in
  source order.
* Alert `id` (`alert-${Date.now()}-${Math.random()…}`) and `timestamp`
  (`new Date().toISOString()`) exist only for uniqueness/bookkeeping; they
  are modelled by the aggregator's creation counter (the random draw the id
  makes is still consumed to keep the stream aligned).
* The JS `Map` is an insertion-ordered association list: `set` on a present
  key updates in place, `set` on an absent key appends; `Array.from(values)`
  is `map Prod.snd`.
* `Array.prototype.sort` with comparator `(a, b) => b.confidence -
  a.confidence` is (per the ES2019 stability guarantee) the stable sort by
  descending confidence, embedded as a stable insertion sort.
-/

/-! ## Satellite image analyzer (`SatelliteImageAnalyzer`)

The browser decode/canvas plumbing reduces an image to normalized mean
channels `(r, g, b) ∈ [0,1]³`; the classification logic below is a pure
function of those means, transcribed from `analyzeImage`,
`estimateAffectedArea` and `calculateSeverity`. -/

inductive SatType where
  | flood | fire | earthquake | hurricane | landslide | none
deriving DecidableEq

structure SatAnalysis where
  vegetationIndex : ℚ
  waterDetection : ℚ
  buildingDamage : ℚ
  fireIntensity : ℚ
deriving DecidableEq

/-- `Math.max(0, Math.min(1, x))`. -/
def clamp01 (x : ℚ) : ℚ := max 0 (min 1 x)

/-- The four analysis indices computed in `analyzeImage`. -/
def satAnalysisOf (r g b : ℚ) : SatAnalysis :=
  { vegetationIndex := clamp01 (g - (r + b) / 2)
    waterDetection := clamp01 (b - (r + g) / 2 + 0.3)
    buildingDamage := clamp01 ((r - g) * 1.5)
    fireIntensity := clamp01 (r * 0.7 + (1 - b) * 0.3) }

/-- The rule cascade of `analyzeImage`: disaster type and confidence from the
normalized mean channels.  The initial values (`none`, `0.6`) survive when no
branch fires. -/
def satClassify (r g b : ℚ) : SatType × ℚ :=
  if b > r ∧ b > g ∧ b > 0.4 then
    (SatType.flood, min 0.95 (0.5 + (b - max r g) * 2))
  else if r > g ∧ r > b ∧ r > 0.5 then
    (SatType.fire, min 0.95 (0.5 + (r - max g b) * 1.5))
  else if r > 0.6 ∧ g > 0.6 ∧ b > 0.6 then
    (SatType.hurricane, min 0.9 (0.6 + (min r (min g b) - 0.6) * 2))
  else if r > 0.4 ∧ g > 0.3 ∧ b < 0.3 ∧ r > b then
    (SatType.landslide, min 0.85 (0.5 + ((r + g) / 2 - b) * 1.2))
  else if |r - g| < 0.1 ∧ |g - b| < 0.1 ∧ r < 0.5 then
    (SatType.earthquake, 0.7)
  else if g > r ∧ g > b then
    (SatType.none, min 0.9 (0.5 + (g - max r b) * 1.5))
  else
    (SatType.none, 0.6)

/-- `estimateAffectedArea` (base area 10 sq km; `default` branch returns 0). -/
def estimateAffectedArea (an : SatAnalysis) (t : SatType) : ℚ :=
  let baseArea : ℚ := 10
  match t with
  | SatType.flood => baseArea * (1 + an.waterDetection * 50)
  | SatType.fire => baseArea * (1 + an.fireIntensity * 30)
  | SatType.earthquake => baseArea * (1 + an.buildingDamage * 40)
  | SatType.hurricane => baseArea * (1 + (an.waterDetection + an.buildingDamage) * 20)
  | SatType.landslide => baseArea * (1 + an.buildingDamage * 25)
  | SatType.none => 0

/-- `SatelliteImageAnalyzer.calculateSeverity`: 0 for `none`, otherwise the
confidence plus a type-weighted index, scaled to 1–5. -/
def satCalculateSeverity (confidence : ℚ) (an : SatAnalysis) (t : SatType) : ℤ :=
  if t = SatType.none then 0
  else
    let severityScore := confidence +
      (match t with
       | SatType.flood => an.waterDetection * 0.3
       | SatType.fire => an.fireIntensity * 0.4
       | SatType.earthquake => an.buildingDamage * 0.5
       | SatType.hurricane => (an.waterDetection + an.buildingDamage) * 0.2
       | SatType.landslide => an.buildingDamage * 0.3
       | SatType.none => 0)
    min 5 (max 1 ⌈severityScore * 5⌉)

/-- C8: an image with normalized mean channels r = 0.2, g = 0.2, b = 0.6 is
classified `flood` with confidence min(0.95, 0.5 + (0.6 − 0.2)·2) = 0.95,
water-detection index clamp01(0.6 − 0.2 + 0.3) = 0.7, and affected area
10·(1 + 0.7·50) = 360. -/
theorem C8_flood_image_scenario :
    satClassify 0.2 0.2 0.6 = (SatType.flood, min 0.95 (0.5 + (0.6 - 0.2) * 2)) ∧
    satClassify 0.2 0.2 0.6 = (SatType.flood, 0.95) ∧
    (satAnalysisOf 0.2 0.2 0.6).waterDetection = clamp01 (0.6 - 0.2 + 0.3) ∧
    (satAnalysisOf 0.2 0.2 0.6).waterDetection = 0.7 ∧
    estimateAffectedArea (satAnalysisOf 0.2 0.2 0.6) (satClassify 0.2 0.2 0.6).1 =
      10 * (1 + 0.7 * 50) ∧
    estimateAffectedArea (satAnalysisOf 0.2 0.2 0.6) (satClassify 0.2 0.2 0.6).1 = 360 := by
  refine ⟨?_, ?_, ?_, ?_, ?_, ?_⟩ <;>
    norm_num [satClassify, satAnalysisOf, clamp01, estimateAffectedArea, min_def, max_def]

/-! ## Social media analyzer (`SocialMediaAnalyzer`): data model -/

inductive Platform where
  | twitter | facebook | instagram | reddit
deriving DecidableEq

/-- The seven disaster categories of the alert pipeline (the `disasterType`
union of `DisasterAlert`; it has no `none`). -/
inductive DType where
  | flood | fire | earthquake | hurricane | landslide | cyclone | tsunami
deriving DecidableEq

inductive Urgency where
  | critical | high | medium | low
deriving DecidableEq

structure Coord where
  lat : ℚ
  lng : ℚ
deriving DecidableEq

/-- `SocialMediaPost`. -/
structure Post where
  id : List Char
  text : List Char
  author : List Char
  location : Option (List Char)
  coordinates : Option Coord
  timestamp : List Char
  platform : Platform
deriving DecidableEq

/-- `DisasterAlert`.  `id` and `timestamp` are impure uniqueness tokens in the
source (`Date.now`/`Math.random`/ISO clock); both are modelled by the
aggregator's creation counter, so `id` doubles as the creation (insertion)
rank of the alert. -/
structure DisasterAlert where
  id : ℕ
  disasterType : DType
  location : List Char
  coordinates : Coord
  confidence : ℚ
  severity : ℚ
  affectedPopulation : ℤ
  reportCount : ℕ
  sentimentScore : ℚ
  urgencyLevel : Urgency
  keywords : List (List Char)
  timestamp : ℕ
  sources : List Post
deriving DecidableEq

/-! ## String helpers -/

/-- `String.prototype.toLowerCase`. -/
def toLowerList (l : List Char) : List Char := l.map Char.toLower

/-- Whether the second list is a prefix of the first (helper for `includes`). -/
def startsWithL : List Char → List Char → Bool
  | _, [] => true
  | [], _ :: _ => false
  | c :: cs, d :: ds => decide (c = d) && startsWithL cs ds

/-- `text.includes(kw)`: substring containment. -/
def includes : List Char → List Char → Bool
  | [], kw => kw.isEmpty
  | c :: cs, kw => startsWithL (c :: cs) kw || includes cs kw

/-- `s.charAt(0).toUpperCase() + s.slice(1)`. -/
def capFirst : List Char → List Char
  | [] => []
  | c :: cs => c.toUpper :: cs

/-- A `\w` character of the tokenizer regex: ASCII alphanumeric or `_`. -/
def isWordChar (c : Char) : Bool := c.isAlphanum || decide (c = '_')

/-- Maximal runs of word characters.  `tokenize` lowercases, replaces every
`[^\w\s]` character by a space, splits on `\s+` and drops empties — which
leaves exactly the maximal `\w`-runs, accumulated here. -/
def wordRunsAux : List Char → List Char → List (List Char)
  | [], acc => if acc.isEmpty then [] else [acc.reverse]
  | c :: cs, acc =>
    if isWordChar c then wordRunsAux cs (c :: acc)
    else if acc.isEmpty then wordRunsAux cs []
    else acc.reverse :: wordRunsAux cs []

/-- The module-level `tokenize`. -/
def tokenize (text : List Char) : List (List Char) :=
  wordRunsAux (toLowerList text) []

/-! ## Fixed tables -/

/-- The keyword lists of `disasterKeywords`, per category. -/
def keywordsFor : DType → List (List Char)
  | DType.flood =>
    ["flood", "flooding", "water rising", "inundation", "waterlogged", "deluge",
     "submerg"].map String.toList
  | DType.fire =>
    ["fire", "blaze", "burning", "flames", "smoke", "wildfire", "forest fire",
     "arson"].map String.toList
  | DType.earthquake =>
    ["earthquake", "tremor", "seismic", "quake", "shaking", "aftershock",
     "epicenter"].map String.toList
  | DType.hurricane =>
    ["hurricane", "cyclone", "typhoon", "storm", "wind", "gale",
     "tempest"].map String.toList
  | DType.landslide =>
    ["landslide", "mudslide", "rockslide", "slope failure", "debris flow",
     "avalanche"].map String.toList
  | DType.cyclone =>
    ["cyclone", "tropical storm", "depression", "low pressure",
     "eye of storm"].map String.toList
  | DType.tsunami =>
    ["tsunami", "tidal wave", "seismic sea wave", "ocean wave"].map String.toList

/-- The fixed iteration order of `Object.entries(this.disasterKeywords)`:
insertion order of the object literal. -/
def dtypeOrderList : List DType :=
  [DType.flood, DType.fire, DType.earthquake, DType.hurricane, DType.landslide,
   DType.cyclone, DType.tsunami]

/-- `disasterKeywords` as the ordered entry list the analyzer iterates. -/
def disasterKeywords : List (DType × List (List Char)) :=
  dtypeOrderList.map (fun t => (t, keywordsFor t))

/-- Position of a category in the fixed table order. -/
def typeOrder : DType → ℕ
  | DType.flood => 0
  | DType.fire => 1
  | DType.earthquake => 2
  | DType.hurricane => 3
  | DType.landslide => 4
  | DType.cyclone => 5
  | DType.tsunami => 6

/-- The string name of a category (used in the aggregation key). -/
def dtypeName : DType → List Char
  | DType.flood => "flood".toList
  | DType.fire => "fire".toList
  | DType.earthquake => "earthquake".toList
  | DType.hurricane => "hurricane".toList
  | DType.landslide => "landslide".toList
  | DType.cyclone => "cyclone".toList
  | DType.tsunami => "tsunami".toList

def urgencyKeywords : List (List Char) :=
  ["urgent", "emergency", "help", "sos", "critical", "immediate", "rescue",
   "trapped", "danger", "life threatening", "evacuate",
   "stranded"].map String.toList

/-- `indianCities`, in object-literal order. -/
def indianCities : List (List Char × Coord) :=
  [("mumbai".toList, ⟨19.0760, 72.8777⟩),
   ("delhi".toList, ⟨28.7041, 77.1025⟩),
   ("bangalore".toList, ⟨12.9716, 77.5946⟩),
   ("hyderabad".toList, ⟨17.3850, 78.4867⟩),
   ("chennai".toList, ⟨13.0827, 80.2707⟩),
   ("kolkata".toList, ⟨22.5726, 88.3639⟩),
   ("pune".toList, ⟨18.5204, 73.8567⟩),
   ("ahmedabad".toList, ⟨23.0225, 72.5714⟩),
   ("kerala".toList, ⟨10.8505, 76.2711⟩),
   ("wayanad".toList, ⟨11.6854, 76.1320⟩),
   ("uttarakhand".toList, ⟨30.0668, 79.0193⟩),
   ("assam".toList, ⟨26.2006, 92.9376⟩),
   ("odisha".toList, ⟨20.9517, 85.0985⟩),
   ("bihar".toList, ⟨25.0961, 85.3131⟩),
   ("rajasthan".toList, ⟨27.0238, 74.2179⟩),
   ("kashmir".toList, ⟨34.0837, 74.7973⟩)]

def majorCities : List (List Char) :=
  ["mumbai", "delhi", "bangalore", "hyderabad", "chennai",
   "kolkata"].map String.toList

/-! ## Randomness

`Math.random()` is a global unseeded generator; it is modelled as an explicit
stream of draws together with the number of draws already consumed.  Each
`Math.random()` call takes the next draw, in the exact source order. -/

structure RandState where
  stream : ℕ → ℚ
  pos : ℕ

/-- One `Math.random()` call. -/
def randNext (r : RandState) : ℚ × RandState :=
  (r.stream r.pos, ⟨r.stream, r.pos + 1⟩)

/-! ## Category selection and per-post analysis -/

/-- One iteration of the `for (const [type, keywords] of Object.entries(...))`
loop: strictly more substring matches than the running maximum replaces the
current winner; the matched keywords of an improving category are appended. -/
def selectStep (text : List Char) (acc : Option DType × ℕ × List (List Char))
    (e : DType × List (List Char)) : Option DType × ℕ × List (List Char) :=
  let matched := e.2.filter (fun kw => includes text kw)
  if acc.2.1 < matched.length then (some e.1, matched.length, acc.2.2 ++ matched)
  else acc

/-- The category-selection loop of `analyzePost`: winner, `maxMatches`, and
the accumulated `matchedKeywords`. -/
def selectDisaster (text : List Char) : Option DType × ℕ × List (List Char) :=
  disasterKeywords.foldl (selectStep text) (Option.none, 0, [])

/-- Number of keyword matches of one category against the (lowercased) text. -/
def countFor (text : List Char) (t : DType) : ℕ :=
  ((keywordsFor t).filter (fun kw => includes text kw)).length

/-- The literal parts of the patterns `/in ([a-z]+)/i`, `/at ([a-z]+)/i`,
`/from ([a-z]+)/i`, `/near ([a-z]+)/i`, tried in this order. -/
def locationPatterns : List (List Char) :=
  ["in ", "at ", "from ", "near "].map String.toList

def isAsciiLowerAlpha (c : Char) : Bool := decide ('a' ≤ c) && decide (c ≤ 'z')

/-- First match of `pat` followed by at least one `[a-z]` character; returns
the captured letter run (the regex scans left to right and the text is
already lowercased). -/
def matchCapture (pat : List Char) : List Char → Option (List Char)
  | [] => Option.none
  | c :: cs =>
    if startsWithL (c :: cs) pat then
      let run := ((c :: cs).drop pat.length).takeWhile isAsciiLowerAlpha
      if run.isEmpty then matchCapture pat cs else some run
    else matchCapture pat cs

/-- `extractLocation` when no (truthy) explicit location is supplied:
gazetteer scan in table order, then the four patterns, then the fallback. -/
def extractLocationBody (text : List Char) : List Char :=
  match (indianCities.map Prod.fst).find? (fun city => includes text city) with
  | some city => capFirst city
  | Option.none =>
    match locationPatterns.findSome? (fun pat => matchCapture pat text) with
    | some w => capFirst w
    | Option.none => "Unknown Location".toList

/-- `extractLocation(text, providedLocation)`.  `if (providedLocation)` is a
JS truthiness test, so the empty string also falls through to the scan. -/
def extractLocation (text : List Char) (provided : Option (List Char)) : List Char :=
  match provided with
  | some loc => if loc.isEmpty then extractLocationBody text else loc
  | Option.none => extractLocationBody text

/-- Exact (lowercased) gazetteer lookup used by `getCoordinates`. -/
def lookupCity (lowered : List Char) : Option Coord :=
  match indianCities.find? (fun e => decide (e.1 = lowered)) with
  | some e => some e.2
  | Option.none => Option.none

/-- `getCoordinates`: exact gazetteer hit returns the fixed coordinate,
otherwise two `Math.random()` draws produce a point of the fixed India
bounding region. -/
def getCoordinates (location : List Char) (r : RandState) : Coord × RandState :=
  match lookupCity (toLowerList location) with
  | some c => (c, r)
  | Option.none =>
    let u1 := randNext r
    let u2 := randNext u1.2
    (⟨20.5937 + (u1.1 - 0.5) * 15, 78.9629 + (u2.1 - 0.5) * 15⟩, u2.2)

/-- `estimateAffectedPopulation`: one random draw, scaled by whether the
location contains a major-city name. -/
def estimateAffectedPopulation (location : List Char) (r : RandState) :
    ℤ × RandState :=
  let lowered := toLowerList location
  let u := randNext r
  if majorCities.any (fun city => includes lowered city) then
    (⌊u.1 * 50000⌋ + 10000, u.2)
  else
    (⌊u.1 * 10000⌋ + 1000, u.2)

/-- `calculateConfidence`, accumulated exactly as in the source. -/
def calculateConfidence (keywordMatches urgencyCount : ℕ) (sentimentScore : ℚ)
    (textLength : ℕ) : ℚ :=
  let c1 : ℚ := 0 + min 0.4 ((keywordMatches : ℚ) * 0.1)
  let c2 := c1 + min 0.3 ((urgencyCount : ℚ) * 0.1)
  let c3 := if sentimentScore < 0 then c2 + min 0.2 (|sentimentScore| * 0.02) else c2
  let c4 := if 10 ≤ textLength ∧ textLength ≤ 100 then c3 + 0.1 else c3
  min 1 c4

/-- `calculateInitialSeverity` (all arithmetic is on small naturals). -/
def calculateInitialSeverity (urgencyLevel : Urgency) (sentimentScore : ℚ)
    (keywordMatches : ℕ) : ℕ :=
  let base : ℕ :=
    match urgencyLevel with
    | Urgency.critical => 5
    | Urgency.high => 4
    | Urgency.medium => 3
    | Urgency.low => 2
  let s1 := if sentimentScore < -5 then min 5 (base + 1) else base
  if 3 ≤ keywordMatches then min 5 (s1 + 1) else s1

/-- `calculateSeverity` (the merge-time recomputation), including the final
`Math.ceil`. -/
def calculateSeverity (alert : DisasterAlert) : ℤ :=
  let s0 := alert.severity
  let s1 := if 10 ≤ alert.reportCount then min 5 (s0 + 1)
            else if 5 ≤ alert.reportCount then min 5 (s0 + 0.5) else s0
  let s2 := if alert.sentimentScore < -10 then min 5 (s1 + 1) else s1
  ⌈s2⌉

/-- Number of distinct urgency-lexicon hits against the lowercased text. -/
def urgencyCountOf (text : List Char) : ℕ :=
  (urgencyKeywords.filter (fun kw => includes text kw)).length

/-- The urgency thresholds of `analyzePost`. -/
def urgencyLevelOf (text : List Char) : Urgency :=
  if 3 ≤ urgencyCountOf text then Urgency.critical
  else if 2 ≤ urgencyCountOf text then Urgency.high
  else if 1 ≤ urgencyCountOf text then Urgency.medium
  else Urgency.low

/-- The record returned by `analyzePost`. -/
structure PostAnalysis where
  isDisasterRelated : Bool
  disasterType : Option DType
  location : List Char
  coordinates : Coord
  confidence : ℚ
  severity : ℕ
  sentimentScore : ℚ
  urgencyLevel : Urgency
  keywords : List (List Char)
deriving DecidableEq

/-- `analyzePost`.  The external `sentiment` library is the parameter
`sentimentOf`; the random state is threaded for the coordinate fallback. -/
def analyzePost (sentimentOf : List Char → ℚ) (r : RandState) (post : Post) :
    PostAnalysis × RandState :=
  let text := toLowerList post.text
  let tokens := tokenize text
  let sel := selectDisaster text
  let location := extractLocation text post.location
  let co := getCoordinates location r
  let sentimentScore := sentimentOf text
  let urgencyLevel := urgencyLevelOf text
  let confidence := calculateConfidence sel.2.1 (urgencyCountOf text)
    sentimentScore tokens.length
  let severity := calculateInitialSeverity urgencyLevel sentimentScore sel.2.1
  ({ isDisasterRelated := sel.1.isSome && decide (0 < sel.2.1)
     disasterType := sel.1
     location := location
     coordinates := co.1
     confidence := confidence
     severity := severity
     sentimentScore := sentimentScore
     urgencyLevel := urgencyLevel
     keywords := sel.2.2 }, co.2)

/-! ## The aggregator state machine of `analyzePosts` -/

/-- The aggregator's batch state: the insertion-ordered alert map, the
creation counter standing in for id/timestamp generation, and the random
stream. -/
structure AggState where
  alerts : List (List Char × DisasterAlert)
  nextId : ℕ
  rand : RandState

def initState (r : RandState) : AggState := ⟨[], 0, r⟩

/-- The merge branch of `analyzePosts`: bump `reportCount`, append the source,
raise confidence by 0.05 capped at 1, take the two-point sentiment average,
then recompute severity from the updated record. -/
def mergeBase (a : DisasterAlert) (an : PostAnalysis) (post : Post) :
    DisasterAlert :=
  { a with reportCount := a.reportCount + 1
           sources := a.sources ++ [post]
           confidence := min 1 (a.confidence + 0.05)
           sentimentScore := (a.sentimentScore + an.sentimentScore) / 2 }

def mergeAlert (a : DisasterAlert) (an : PostAnalysis) (post : Post) :
    DisasterAlert :=
  { mergeBase a an post with
      severity := ((calculateSeverity (mergeBase a an post) : ℤ) : ℚ) }

/-- The template-literal key `${analysis.disasterType}-${analysis.location}`. -/
def alertKey (t : DType) (location : List Char) : List Char :=
  dtypeName t ++ ('-' :: location)

/-- `Map.set` on a present key: update in place, keeping the position. -/
def updateFirst (l : List (List Char × DisasterAlert)) (k : List Char)
    (f : DisasterAlert → DisasterAlert) : List (List Char × DisasterAlert) :=
  match l with
  | [] => []
  | e :: rest => if e.1 = k then (e.1, f e.2) :: rest else e :: updateFirst rest k f

/-- The alert record built by the create branch of `analyzePosts` (`pop` is
the already-drawn `estimateAffectedPopulation` value; id and timestamp are the
creation counter, per the modelling conventions above). -/
def createAlert (st : AggState) (t : DType) (an : PostAnalysis) (post : Post)
    (pop : ℤ) : DisasterAlert :=
  { id := st.nextId
    disasterType := t
    location := an.location
    coordinates := an.coordinates
    confidence := an.confidence
    severity := (an.severity : ℚ)
    affectedPopulation := pop
    reportCount := 1
    sentimentScore := an.sentimentScore
    urgencyLevel := an.urgencyLevel
    keywords := an.keywords
    timestamp := st.nextId
    sources := [post] }

/-- One iteration of the `for (const post of posts)` loop of `analyzePosts`.
The create branch consumes the id's random draw and the population draw in
source order. -/
def processPost (sentimentOf : List Char → ℚ) (st : AggState) (post : Post) :
    AggState :=
  let ar := analyzePost sentimentOf st.rand post
  let an := ar.1
  if an.isDisasterRelated then
    match an.disasterType with
    | some t =>
      let key := alertKey t an.location
      match st.alerts.find? (fun e => decide (e.1 = key)) with
      | some _ =>
        { st with alerts := updateFirst st.alerts key (fun a => mergeAlert a an post)
                  rand := ar.2 }
      | Option.none =>
        let idDraw := randNext ar.2
        let pop := estimateAffectedPopulation an.location idDraw.2
        { alerts := st.alerts ++ [(key, createAlert st t an post pop.1)]
          nextId := st.nextId + 1
          rand := pop.2 }
    | Option.none => { st with rand := ar.2 }
  else { st with rand := ar.2 }

/-- The aggregation loop of `analyzePosts`. -/
def analyzePostsAgg (sentimentOf : List Char → ℚ) (posts : List Post)
    (st : AggState) : AggState :=
  posts.foldl (processPost sentimentOf) st

/-- The publication filter `reportCount >= 2 || urgencyLevel === 'critical'`. -/
def publishFilter (a : DisasterAlert) : Bool :=
  decide (2 ≤ a.reportCount) || decide (a.urgencyLevel = Urgency.critical)

/-- Stable insertion of an alert into a descending-confidence list: an element
is placed before the first entry whose confidence does not exceed its own, so
equal-confidence entries keep their relative order. -/
def insertDesc (a : DisasterAlert) : List DisasterAlert → List DisasterAlert
  | [] => [a]
  | b :: rest =>
    if b.confidence ≤ a.confidence then a :: b :: rest else b :: insertDesc a rest

/-- The stable sort by descending confidence: the embedding of
`.sort((a, b) => b.confidence - a.confidence)` under the ES2019 stability
guarantee. -/
def sortDesc : List DisasterAlert → List DisasterAlert
  | [] => []
  | a :: rest => insertDesc a (sortDesc rest)

/-- `analyzePosts`: aggregate the batch, then filter and sort the map values
(in insertion order) for publication. -/
def analyzePosts (sentimentOf : List Char → ℚ) (r : RandState)
    (posts : List Post) : List DisasterAlert :=
  let st := analyzePostsAgg sentimentOf posts (initState r)
  sortDesc ((st.alerts.map Prod.snd).filter publishFilter)

/-! ## Supporting lemmas -/

lemma clamp01_eq_min (x : ℚ) (hx : 0 ≤ x) : clamp01 x = min 1 x :=
  max_eq_right (le_min zero_le_one hx)

lemma min_cap_four (k : ℕ) : min 0.4 ((k : ℚ) * 0.1) = 0.1 * min 4 (k : ℚ) := by
  rcases le_total ((k : ℚ)) 4 with h | h
  · rw [min_eq_right (by linarith : (k : ℚ) * 0.1 ≤ 0.4), min_eq_right h]; ring
  · rw [min_eq_left (by linarith : (0.4 : ℚ) ≤ (k : ℚ) * 0.1), min_eq_left h]; norm_num

lemma min_cap_three (u : ℕ) : min 0.3 ((u : ℚ) * 0.1) = 0.1 * min 3 (u : ℚ) := by
  rcases le_total ((u : ℚ)) 3 with h | h
  · rw [min_eq_right (by linarith : (u : ℚ) * 0.1 ≤ 0.3), min_eq_right h]; ring
  · rw [min_eq_left (by linarith : (0.3 : ℚ) ≤ (u : ℚ) * 0.1), min_eq_left h]; norm_num

/-- C5: the text-classifier confidence is `clamp01` of the four-part sum —
0.1·min(4, keywordMatches) + 0.1·min(3, urgencyHits) + the negative-sentiment
credit min(0.2, |sentiment|·0.02) + the 0.1 length credit for 10–100 tokens —
and it always lies in [0, 1]. -/
theorem C5_confidence_formula (k u : ℕ) (s : ℚ) (t : ℕ) :
    calculateConfidence k u s t =
      clamp01 (0.1 * min 4 (k : ℚ) + 0.1 * min 3 (u : ℚ) +
        (if s < 0 then min 0.2 (|s| * 0.02) else 0) +
        (if 10 ≤ t ∧ t ≤ 100 then 0.1 else 0)) ∧
    0 ≤ calculateConfidence k u s t ∧ calculateConfidence k u s t ≤ 1 := by
  have hA0 : (0 : ℚ) ≤ min 0.4 ((k : ℚ) * 0.1) :=
    le_min (by norm_num) (by positivity)
  have hB0 : (0 : ℚ) ≤ min 0.3 ((u : ℚ) * 0.1) :=
    le_min (by norm_num) (by positivity)
  have hC0 : (0 : ℚ) ≤ min 0.2 (|s| * 0.02) :=
    le_min (by norm_num) (by positivity)
  refine ⟨?_, ?_, ?_⟩
  · simp only [calculateConfidence]
    split_ifs with h1 h2 h2 <;>
      · rw [clamp01_eq_min _ (by rw [← min_cap_four, ← min_cap_three]; linarith)]
        rw [← min_cap_four, ← min_cap_three]
        congr 1
        ring
  · simp only [calculateConfidence]
    split_ifs <;> · exact le_min (by norm_num) (by linarith)
  · simp only [calculateConfidence]
    split_ifs <;> · exact min_le_left _ _

/-- Iterated merging of subsequent signals into one alert (the merge branch of
`analyzePosts`, applied signal by signal). -/
def mergeFold (a : DisasterAlert) (ss : List (PostAnalysis × Post)) : DisasterAlert :=
  ss.foldl (fun x pr => mergeAlert x pr.1 pr.2) a

lemma mergeAlert_confidence (a : DisasterAlert) (an : PostAnalysis) (p : Post) :
    (mergeAlert a an p).confidence = min 1 (a.confidence + 0.05) := rfl

lemma min_one_add_shift (x y : ℚ) (hy : 0 ≤ y) :
    min 1 (min 1 x + y) = min 1 (x + y) := by
  rcases le_total x 1 with h | h
  · rw [min_eq_right h]
  · rw [min_eq_left h, min_eq_left (by linarith), min_eq_left (by linarith)]

/-- C4: one merge sets confidence to min(1, previous + 0.05); hence it is
non-decreasing, increases by exactly 0.05 while uncapped, stays at 1 once
capped, and after n merges equals min(1, initial + n·0.05). -/
theorem C4_confidence_across_merges :
    (∀ a an p, (mergeAlert a an p).confidence = min 1 (a.confidence + 0.05)) ∧
    (∀ a an p, a.confidence ≤ 1 → a.confidence ≤ (mergeAlert a an p).confidence) ∧
    (∀ a an p, a.confidence + 0.05 ≤ 1 →
      (mergeAlert a an p).confidence = a.confidence + 0.05) ∧
    (∀ a an p, a.confidence = 1 → (mergeAlert a an p).confidence = 1) ∧
    (∀ a ss, a.confidence ≤ 1 →
      (mergeFold a ss).confidence = min 1 (a.confidence + ss.length * 0.05)) := by
  refine ⟨fun a an p => rfl, ?_, ?_, ?_, ?_⟩
  · intro a an p h
    rw [mergeAlert_confidence]
    exact le_min h (by linarith)
  · intro a an p h
    rw [mergeAlert_confidence]
    exact min_eq_right h
  · intro a an p h
    rw [mergeAlert_confidence, h]
    exact min_eq_left (by norm_num)
  · intro a ss
    induction ss generalizing a with
    | nil =>
      intro h
      simp only [mergeFold, List.foldl_nil, List.length_nil, Nat.cast_zero,
        zero_mul, add_zero]
      exact (min_eq_right h).symm
    | cons pr rest ih =>
      intro h
      have hstep : mergeFold a (pr :: rest) = mergeFold (mergeAlert a pr.1 pr.2) rest := rfl
      rw [hstep, ih _ (by rw [mergeAlert_confidence]; exact min_le_left _ _),
        mergeAlert_confidence, min_one_add_shift _ _ (by positivity)]
      congr 1
      push_cast [List.length_cons]
      ring

/-- Concrete inputs for the C4 witness. -/
def alertW : DisasterAlert :=
  { id := 0, disasterType := DType.flood, location := [], coordinates := ⟨0, 0⟩,
    confidence := 0.8, severity := 2, affectedPopulation := 0, reportCount := 1,
    sentimentScore := 0, urgencyLevel := Urgency.low, keywords := [],
    timestamp := 0, sources := [] }

def analysisW : PostAnalysis :=
  { isDisasterRelated := true, disasterType := some DType.flood, location := [],
    coordinates := ⟨0, 0⟩, confidence := 0, severity := 2, sentimentScore := 0,
    urgencyLevel := Urgency.low, keywords := [] }

def postW : Post := ⟨[], [], [], Option.none, Option.none, [], Platform.twitter⟩

/-- Witness for C4 at a concrete alert with confidence 0.8 and three merges. -/
theorem C4_confidence_across_merges_witness :
    (mergeAlert alertW analysisW postW).confidence = 0.8 + 0.05 ∧
      (mergeFold alertW [(analysisW, postW), (analysisW, postW),
        (analysisW, postW)]).confidence = min 1 (0.8 + 3 * 0.05) := by
  refine ⟨?_, ?_⟩
  · exact C4_confidence_across_merges.2.2.1 alertW analysisW postW (by norm_num [alertW])
  · have h := C4_confidence_across_merges.2.2.2.2 alertW
      [(analysisW, postW), (analysisW, postW), (analysisW, postW)]
      (by norm_num [alertW] : alertW.confidence ≤ 1)
    simpa [alertW] using h

lemma ceil_le_five {x : ℚ} (h : x ≤ 5) : ⌈x⌉ ≤ 5 :=
  Int.ceil_le.mpr (by exact_mod_cast h)

lemma le_ceil_int {x : ℚ} {m : ℤ} (h : (m : ℚ) ≤ x) : m ≤ ⌈x⌉ := by
  exact_mod_cast h.trans (Int.le_ceil x)

lemma lt_ceil_int {x : ℚ} {m : ℤ} (h : (m : ℚ) < x) : m + 1 ≤ ⌈x⌉ := by
  have := Int.lt_ceil.mpr h
  omega

lemma calculateInitialSeverity_bounds (u : Urgency) (s : ℚ) (k : ℕ) :
    2 ≤ calculateInitialSeverity u s k ∧ calculateInitialSeverity u s k ≤ 5 := by
  unfold calculateInitialSeverity
  cases u <;> split_ifs <;> simp

/-- Bounds for one severity recomputation: with an integer severity m ∈ [2,5]
the result stays in [max m 2, 5], and any merge at report count ≥ 5 with
m ≤ 4 strictly increases it. -/
lemma calculateSeverity_spec (a : DisasterAlert) (m : ℤ)
    (hm : a.severity = (m : ℚ)) (h2 : 2 ≤ m) (h5 : m ≤ 5) :
    2 ≤ calculateSeverity a ∧ calculateSeverity a ≤ 5 ∧ m ≤ calculateSeverity a ∧
    (5 ≤ a.reportCount → m ≤ 4 → m + 1 ≤ calculateSeverity a) := by
  have h5q : (m : ℚ) ≤ 5 := by exact_mod_cast h5
  have h2q : (2 : ℚ) ≤ (m : ℚ) := by exact_mod_cast h2
  have hkey : (if a.sentimentScore < -10 then
        min 5 ((if 10 ≤ a.reportCount then min 5 ((m : ℚ) + 1)
          else if 5 ≤ a.reportCount then min 5 ((m : ℚ) + 0.5) else (m : ℚ)) + 1)
      else (if 10 ≤ a.reportCount then min 5 ((m : ℚ) + 1)
          else if 5 ≤ a.reportCount then min 5 ((m : ℚ) + 0.5) else (m : ℚ))) ≤ 5 ∧
      (m : ℚ) ≤ (if a.sentimentScore < -10 then
        min 5 ((if 10 ≤ a.reportCount then min 5 ((m : ℚ) + 1)
          else if 5 ≤ a.reportCount then min 5 ((m : ℚ) + 0.5) else (m : ℚ)) + 1)
      else (if 10 ≤ a.reportCount then min 5 ((m : ℚ) + 1)
          else if 5 ≤ a.reportCount then min 5 ((m : ℚ) + 0.5) else (m : ℚ))) ∧
      (5 ≤ a.reportCount → m ≤ 4 → (m : ℚ) < (if a.sentimentScore < -10 then
        min 5 ((if 10 ≤ a.reportCount then min 5 ((m : ℚ) + 1)
          else if 5 ≤ a.reportCount then min 5 ((m : ℚ) + 0.5) else (m : ℚ)) + 1)
      else (if 10 ≤ a.reportCount then min 5 ((m : ℚ) + 1)
          else if 5 ≤ a.reportCount then min 5 ((m : ℚ) + 0.5) else (m : ℚ)))) := by
    have hb1 : (m : ℚ) ≤ min 5 ((m : ℚ) + 1) := le_min h5q (by linarith)
    have hb2 : (m : ℚ) ≤ min 5 ((m : ℚ) + 0.5) := le_min h5q (by linarith)
    split_ifs with hs h10 h5r h10b h5rb
    · refine ⟨min_le_left _ _, le_min h5q (by linarith), fun hrc hm4 => ?_⟩
      have hm4q : (m : ℚ) ≤ 4 := by exact_mod_cast hm4
      have h1 : (m : ℚ) + 1 ≤ min 5 ((m : ℚ) + 1) := le_min (by linarith) le_rfl
      exact lt_min_iff.mpr ⟨by linarith, by linarith⟩
    · refine ⟨min_le_left _ _, le_min h5q (by linarith), fun hrc hm4 => ?_⟩
      have hm4q : (m : ℚ) ≤ 4 := by exact_mod_cast hm4
      have h1 : (m : ℚ) + 0.5 ≤ min 5 ((m : ℚ) + 0.5) := le_min (by linarith) le_rfl
      exact lt_min_iff.mpr ⟨by linarith, by linarith⟩
    · exact ⟨min_le_left _ _, le_min h5q (by linarith), fun hrc hm4 => absurd hrc h5r⟩
    · refine ⟨min_le_left _ _, hb1, fun hrc hm4 => ?_⟩
      have hm4q : (m : ℚ) ≤ 4 := by exact_mod_cast hm4
      exact lt_of_lt_of_le (by linarith) (le_min (by linarith) le_rfl)
    · refine ⟨min_le_left _ _, hb2, fun hrc hm4 => ?_⟩
      have hm4q : (m : ℚ) ≤ 4 := by exact_mod_cast hm4
      exact lt_of_lt_of_le (by linarith) (le_min (by linarith) le_rfl)
    · exact ⟨h5q, le_rfl, fun hrc hm4 => absurd hrc h5rb⟩
  have hrepr : calculateSeverity a = ⌈(if a.sentimentScore < -10 then
        min 5 ((if 10 ≤ a.reportCount then min 5 ((m : ℚ) + 1)
          else if 5 ≤ a.reportCount then min 5 ((m : ℚ) + 0.5) else (m : ℚ)) + 1)
      else (if 10 ≤ a.reportCount then min 5 ((m : ℚ) + 1)
          else if 5 ≤ a.reportCount then min 5 ((m : ℚ) + 0.5) else (m : ℚ)))⌉ := by
    unfold calculateSeverity
    rw [hm]
  obtain ⟨hA, hB, hC⟩ := hkey
  rw [hrepr]
  exact ⟨le_ceil_int (by linarith), ceil_le_five hA, le_ceil_int hB,
    fun h1 h4 => lt_ceil_int (hC h1 h4)⟩

/-- The severity invariant the aggregator maintains: an integer value in
[2, 5] that is moreover forced up to min(5, reportCount − 2) by the
escalation at report counts 5–9 and 10. -/
def sevInv (a : DisasterAlert) : Prop :=
  ∃ m : ℤ, a.severity = (m : ℚ) ∧ 2 ≤ m ∧ m ≤ 5 ∧
    min 5 ((a.reportCount : ℤ) - 2) ≤ m

lemma sevInv_merge (a : DisasterAlert) (an : PostAnalysis) (p : Post)
    (h : sevInv a) : sevInv (mergeAlert a an p) := by
  obtain ⟨m, hm, h2, h5, hmin⟩ := h
  have hbase : (mergeBase a an p).severity = (m : ℚ) := hm
  obtain ⟨g2, g5, gmono, ginc⟩ := calculateSeverity_spec (mergeBase a an p) m hbase h2 h5
  refine ⟨calculateSeverity (mergeBase a an p), rfl, g2, g5, ?_⟩
  have hrc : (mergeAlert a an p).reportCount = a.reportCount + 1 := rfl
  rw [hrc]
  by_cases hge : 5 ≤ a.reportCount + 1
  · by_cases hm4 : m ≤ 4
    · have hstep := ginc (by exact hge) hm4
      push_cast
      omega
    · push_cast
      omega
  · push_cast
    omega

lemma sevInv_mergeFold (a : DisasterAlert) (ss : List (PostAnalysis × Post))
    (h : sevInv a) : sevInv (mergeFold a ss) := by
  induction ss generalizing a with
  | nil => exact h
  | cons pr rest ih => exact ih _ (sevInv_merge a pr.1 pr.2 h)

lemma mergeFold_reportCount (a : DisasterAlert) (ss : List (PostAnalysis × Post)) :
    (mergeFold a ss).reportCount = a.reportCount + ss.length := by
  induction ss generalizing a with
  | nil => rfl
  | cons pr rest ih =>
    have : mergeFold a (pr :: rest) = mergeFold (mergeAlert a pr.1 pr.2) rest := rfl
    rw [this, ih]
    simp [mergeAlert, mergeBase]
    omega

/-- C3: an alert created with any initial severity that accumulates ten total
reports (nine merges), with running sentiment below −10 at the tenth, has
recomputed severity exactly 5. -/
theorem C3_ten_reports_severity_five (a : DisasterAlert) (u : Urgency) (s0 : ℚ)
    (k : ℕ) (ss : List (PostAnalysis × Post))
    (hrc : a.reportCount = 1)
    (hsev : a.severity = ((calculateInitialSeverity u s0 k : ℕ) : ℚ))
    (hlen : ss.length = 9)
    (hsent : (mergeFold a ss).sentimentScore < -10) :
    (mergeFold a ss).severity = 5 := by
  have hinv : sevInv a := by
    obtain ⟨h2, h5⟩ := calculateInitialSeverity_bounds u s0 k
    refine ⟨(calculateInitialSeverity u s0 k : ℤ), by push_cast [hsev]; rfl, by exact_mod_cast h2,
      by exact_mod_cast h5, ?_⟩
    rw [hrc]
    have : (2 : ℤ) ≤ (calculateInitialSeverity u s0 k : ℤ) := by exact_mod_cast h2
    push_cast
    omega
  obtain ⟨m, hm, h2, h5, hmin⟩ := sevInv_mergeFold a ss hinv
  have hcount := mergeFold_reportCount a ss
  rw [hrc, hlen] at hcount
  rw [hcount] at hmin
  have hm5 : m = 5 := by push_cast at hmin; omega
  rw [hm, hm5]
  norm_num

/-- Concrete inputs for the C3 witness: a freshly created low-urgency alert
and nine merges of sentiment −20 signals. -/
def alertC3W : DisasterAlert :=
  { id := 0, disasterType := DType.flood, location := [], coordinates := ⟨0, 0⟩,
    confidence := 0.5, severity := ((calculateInitialSeverity Urgency.low 0 0 : ℕ) : ℚ),
    affectedPopulation := 0, reportCount := 1, sentimentScore := -20,
    urgencyLevel := Urgency.low, keywords := [], timestamp := 0, sources := [] }

def analysisC3W : PostAnalysis :=
  { isDisasterRelated := true, disasterType := some DType.flood, location := [],
    coordinates := ⟨0, 0⟩, confidence := 0, severity := 2, sentimentScore := -20,
    urgencyLevel := Urgency.low, keywords := [] }

/-- Witness for C3: the concrete ten-report alert ends at severity exactly 5. -/
theorem C3_ten_reports_severity_five_witness :
    (mergeFold alertC3W (List.replicate 9 (analysisC3W, postW))).severity = 5 :=
  C3_ten_reports_severity_five alertC3W Urgency.low 0 0 _ rfl rfl (by simp)
    (by norm_num [mergeFold, mergeAlert, mergeBase, alertC3W, analysisC3W, List.replicate])

/-- The three possible effects of one loop iteration on the alert map:
unchanged (non-disaster post), an in-place merge at some key, or the append
of a freshly created alert at a key that was absent. -/
lemma processPost_shape (so : List Char → ℚ) (st : AggState) (p : Post) :
    ((processPost so st p).alerts = st.alerts ∧ (processPost so st p).nextId = st.nextId) ∨
    (∃ key, (processPost so st p).alerts =
        updateFirst st.alerts key (fun a => mergeAlert a (analyzePost so st.rand p).1 p) ∧
      (processPost so st p).nextId = st.nextId) ∨
    (∃ key t pop, st.alerts.find? (fun x => decide (x.1 = key)) = Option.none ∧
      (processPost so st p).alerts =
        st.alerts ++ [(key, createAlert st t (analyzePost so st.rand p).1 p pop)] ∧
      (processPost so st p).nextId = st.nextId + 1) := by
  by_cases hd : (analyzePost so st.rand p).1.isDisasterRelated
  · rcases hty : (analyzePost so st.rand p).1.disasterType with _ | t
    · left
      constructor <;> simp [processPost, hd, hty]
    · rcases hf : st.alerts.find?
          (fun x => decide (x.1 = alertKey t (analyzePost so st.rand p).1.location)) with _ | e0
      · right; right
        refine ⟨alertKey t (analyzePost so st.rand p).1.location, t,
          (estimateAffectedPopulation (analyzePost so st.rand p).1.location
            (randNext (analyzePost so st.rand p).2).2).1, hf, ?_, ?_⟩ <;>
          simp [processPost, hd, hty, hf]
      · right; left
        refine ⟨alertKey t (analyzePost so st.rand p).1.location, ?_, ?_⟩ <;>
          simp [processPost, hd, hty, hf]
  · left
    constructor <;> simp [processPost, hd]

lemma mem_updateFirst {l : List (List Char × DisasterAlert)} {k : List Char}
    {f : DisasterAlert → DisasterAlert} {e : List Char × DisasterAlert}
    (he : e ∈ updateFirst l k f) :
    e ∈ l ∨ ∃ x ∈ l, e = (x.1, f x.2) := by
  induction l with
  | nil => simp [updateFirst] at he
  | cons x rest ih =>
    unfold updateFirst at he
    split_ifs at he with hx
    · rcases List.mem_cons.mp he with he | he
      · exact Or.inr ⟨x, List.mem_cons_self x rest, he⟩
      · exact Or.inl (List.mem_cons_of_mem x he)
    · rcases List.mem_cons.mp he with he | he
      · exact Or.inl (he ▸ List.mem_cons_self x rest)
      · rcases ih he with h1 | ⟨y, hy, hey⟩
        · exact Or.inl (List.mem_cons_of_mem x h1)
        · exact Or.inr ⟨y, List.mem_cons_of_mem x hy, hey⟩

/-- The projection of `analyzePost` defining the initial severity. -/
lemma analyzePost_severity (so : List Char → ℚ) (r : RandState) (p : Post) :
    (analyzePost so r p).1.severity =
      calculateInitialSeverity (urgencyLevelOf (toLowerList p.text))
        (so (toLowerList p.text)) (selectDisaster (toLowerList p.text)).2.1 := rfl

lemma sevInv_processPost (so : List Char → ℚ) (st : AggState) (p : Post)
    (h : ∀ e ∈ st.alerts, sevInv e.2) :
    ∀ e ∈ (processPost so st p).alerts, sevInv e.2 := by
  intro e he
  rcases processPost_shape so st p with ⟨ha, _⟩ | ⟨key, ha, _⟩ | ⟨key, t, pop, hf, ha, _⟩
  · rw [ha] at he
    exact h e he
  · rw [ha] at he
    rcases mem_updateFirst he with h1 | ⟨x, hx, hex⟩
    · exact h e h1
    · rw [hex]
      exact sevInv_merge _ _ _ (h x hx)
  · rw [ha] at he
    rcases List.mem_append.mp he with h1 | h1
    · exact h e h1
    · have he2 : e = (key, createAlert st t (analyzePost so st.rand p).1 p pop) := by
        simpa using h1
      rw [he2]
      obtain ⟨h2, h5⟩ := calculateInitialSeverity_bounds
        (urgencyLevelOf (toLowerList p.text)) (so (toLowerList p.text))
        (selectDisaster (toLowerList p.text)).2.1
      rw [← analyzePost_severity so st.rand p] at h2 h5
      refine ⟨((analyzePost so st.rand p).1.severity : ℤ), by push_cast; rfl,
        by exact_mod_cast h2, by exact_mod_cast h5, ?_⟩
      have h2' : (2 : ℤ) ≤ ((analyzePost so st.rand p).1.severity : ℤ) := by exact_mod_cast h2
      have hrc : (createAlert st t (analyzePost so st.rand p).1 p pop).reportCount = 1 := rfl
      rw [hrc]
      push_cast
      omega

lemma sevInv_agg (so : List Char → ℚ) (posts : List Post) (st : AggState)
    (h : ∀ e ∈ st.alerts, sevInv e.2) :
    ∀ e ∈ (analyzePostsAgg so posts st).alerts, sevInv e.2 := by
  induction posts generalizing st with
  | nil => exact h
  | cons q rest ih => exact ih _ (sevInv_processPost so st q h)

lemma insertDesc_perm (a : DisasterAlert) (l : List DisasterAlert) :
    (insertDesc a l).Perm (a :: l) := by
  induction l with
  | nil => exact List.Perm.refl _
  | cons b rest ih =>
    unfold insertDesc
    split_ifs
    · exact List.Perm.refl _
    · exact (List.Perm.cons b ih).trans (List.Perm.swap a b rest)

lemma sortDesc_perm (l : List DisasterAlert) : (sortDesc l).Perm l := by
  induction l with
  | nil => exact List.Perm.refl _
  | cons a rest ih => exact (insertDesc_perm a (sortDesc rest)).trans (List.Perm.cons a ih)

lemma mem_analyzePosts {so : List Char → ℚ} {r : RandState} {posts : List Post}
    {a : DisasterAlert} (ha : a ∈ analyzePosts so r posts) :
    ∃ e ∈ (analyzePostsAgg so posts (initState r)).alerts, e.2 = a := by
  have h1 : a ∈ ((analyzePostsAgg so posts (initState r)).alerts.map Prod.snd).filter
      publishFilter := (sortDesc_perm _).mem_iff.mp ha
  have h2 := (List.mem_filter.mp h1).1
  rcases List.mem_map.mp h2 with ⟨e, he, hea⟩
  exact ⟨e, he, hea⟩

/-- C7: text-classified signals get severity in {1..5}; satellite signals of
type `none` get severity 0 while classified ones get severity in {1..5}; and
every alert published by `analyzePosts` has severity in {1..5}. -/
theorem C7_severity_ranges :
    (∀ u s k, 1 ≤ calculateInitialSeverity u s k ∧ calculateInitialSeverity u s k ≤ 5) ∧
    (∀ c an, satCalculateSeverity c an SatType.none = 0) ∧
    (∀ c an t, t ≠ SatType.none →
      1 ≤ satCalculateSeverity c an t ∧ satCalculateSeverity c an t ≤ 5) ∧
    (∀ so r posts, (analyzePosts so r posts).Forall
      (fun a => 1 ≤ a.severity ∧ a.severity ≤ 5)) := by
  refine ⟨?_, ?_, ?_, ?_⟩
  · intro u s k
    obtain ⟨h2, h5⟩ := calculateInitialSeverity_bounds u s k
    omega
  · intro c an
    simp [satCalculateSeverity]
  · intro c an t ht
    unfold satCalculateSeverity
    rw [if_neg ht]
    dsimp only
    omega
  · intro so r posts
    rw [List.forall_iff_forall_mem]
    intro a ha
    rcases mem_analyzePosts ha with ⟨e, he, hea⟩
    have hinv := sevInv_agg so posts (initState r) (by intro x hx; simp [initState] at hx) e he
    obtain ⟨m, hm, h2, h5, _⟩ := hinv
    rw [← hea, hm]
    have h2q : (2 : ℚ) ≤ (m : ℚ) := by exact_mod_cast h2
    have h5q : (m : ℚ) ≤ 5 := by exact_mod_cast h5
    constructor <;> linarith

/-- Witness for C7 discharging the `t ≠ none` hypothesis at `flood`. -/
theorem C7_severity_ranges_witness :
    1 ≤ satCalculateSeverity 0.8 ⟨0, 0, 0, 0⟩ SatType.flood ∧
      satCalculateSeverity 0.8 ⟨0, 0, 0, 0⟩ SatType.flood ≤ 5 :=
  C7_severity_ranges.2.2.1 0.8 ⟨0, 0, 0, 0⟩ SatType.flood (by decide)

/-- Counterexample to C9 as stated: the fallback coordinates come from the
global unseeded `Math.random()` stream, which advances between calls, so the
same unknown location looked up twice (here with the concrete stream
0, 1/2, 1/2, … starting at position 0) yields two different coordinates; no
seed parameter exists that could make the two runs agree. -/
theorem C9_counterexample :
    (getCoordinates "atlantis".toList ⟨fun n => if n = 0 then 0 else 1/2, 0⟩).1 ≠
      (getCoordinates "atlantis".toList
        ((getCoordinates "atlantis".toList
          ⟨fun n => if n = 0 then 0 else 1/2, 0⟩).2)).1 := by
  have hlook : lookupCity (toLowerList "atlantis".toList) = Option.none := by decide
  simp only [getCoordinates, hlook, randNext]
  intro h
  have h2 := congrArg Coord.lat h
  norm_num at h2

/-- C9 amended: an exact gazetteer hit deterministically returns the fixed
table coordinate (independently of — and without touching — the random
state); for any other location the fallback point is drawn from the global
random stream and lies in the fixed bounding region
lat ∈ [20.5937 − 7.5, 20.5937 + 7.5), lng ∈ [78.9629 − 7.5, 78.9629 + 7.5),
but successive lookups advance the stream, so it is not a deterministic
function of the location. -/
theorem C9_coordinate_lookup :
    (∀ loc r c, lookupCity (toLowerList loc) = some c → getCoordinates loc r = (c, r)) ∧
    (∀ loc r, lookupCity (toLowerList loc) = Option.none →
      (∀ n, 0 ≤ r.stream n ∧ r.stream n < 1) →
      20.5937 - 7.5 ≤ (getCoordinates loc r).1.lat ∧
      (getCoordinates loc r).1.lat < 20.5937 + 7.5 ∧
      78.9629 - 7.5 ≤ (getCoordinates loc r).1.lng ∧
      (getCoordinates loc r).1.lng < 78.9629 + 7.5) := by
  constructor
  · intro loc r c h
    simp [getCoordinates, h]
  · intro loc r h hb
    simp only [getCoordinates, h, randNext]
    obtain ⟨h0a, h0b⟩ := hb r.pos
    obtain ⟨h1a, h1b⟩ := hb (r.pos + 1)
    exact ⟨by linarith, by linarith, by linarith, by linarith⟩

/-- Witness for C9: the gazetteer hit "Mumbai" and a fallback lookup of
"atlantis" under the all-zero stream. -/
theorem C9_coordinate_lookup_witness :
    getCoordinates "Mumbai".toList ⟨fun _ => 0, 0⟩ =
      (⟨19.0760, 72.8777⟩, ⟨fun _ => 0, 0⟩) ∧
    (20.5937 - 7.5 ≤ (getCoordinates "atlantis".toList ⟨fun _ => 0, 0⟩).1.lat ∧
      (getCoordinates "atlantis".toList ⟨fun _ => 0, 0⟩).1.lat < 20.5937 + 7.5 ∧
      78.9629 - 7.5 ≤ (getCoordinates "atlantis".toList ⟨fun _ => 0, 0⟩).1.lng ∧
      (getCoordinates "atlantis".toList ⟨fun _ => 0, 0⟩).1.lng < 78.9629 + 7.5) := by
  constructor
  · exact C9_coordinate_lookup.1 "Mumbai".toList ⟨fun _ => 0, 0⟩ _ rfl
  · exact C9_coordinate_lookup.2 "atlantis".toList ⟨fun _ => 0, 0⟩ (by decide)
      (fun n => by norm_num)

lemma selectFold_mono (text : List Char) (l : List (DType × List (List Char)))
    (acc : Option DType × ℕ × List (List Char)) :
    acc.2.1 ≤ (l.foldl (selectStep text) acc).2.1 := by
  induction l generalizing acc with
  | nil => exact le_rfl
  | cons e rest ih =>
    refine le_trans ?_ (ih (selectStep text acc e))
    unfold selectStep
    dsimp only
    split_ifs with h
    · exact le_of_lt h
    · exact le_rfl

lemma selectFold_le (text : List Char) (l : List (DType × List (List Char)))
    (acc : Option DType × ℕ × List (List Char)) (e : DType × List (List Char))
    (he : e ∈ l) :
    (e.2.filter (fun kw => includes text kw)).length ≤
      (l.foldl (selectStep text) acc).2.1 := by
  induction l generalizing acc with
  | nil => simp at he
  | cons x rest ih =>
    rcases List.mem_cons.mp he with rfl | hm
    · refine le_trans ?_ (selectFold_mono text rest (selectStep text acc e))
      unfold selectStep
      dsimp only
      split_ifs with h
      · exact le_rfl
      · exact le_of_not_lt h
    · exact ih (selectStep text acc x) hm

lemma selectFold_zero (text : List Char) (l : List (DType × List (List Char)))
    (acc : Option DType × ℕ × List (List Char))
    (h : ∀ e ∈ l, (e.2.filter (fun kw => includes text kw)).length = 0) :
    l.foldl (selectStep text) acc = acc := by
  induction l generalizing acc with
  | nil => rfl
  | cons x rest ih =>
    have hx : selectStep text acc x = acc := by
      unfold selectStep
      dsimp only
      rw [h x (List.mem_cons_self x rest)]
      simp
    rw [List.foldl_cons, hx]
    exact ih acc (fun e he => h e (List.mem_cons_of_mem x he))

lemma selectFold_spec (text : List Char) :
    ∀ (rest : List (DType × List (List Char))) (o : Option DType) (m : ℕ)
      (ks : List (List Char)),
    (∀ e ∈ rest, e.2 = keywordsFor e.1) →
    List.Pairwise (fun e f => typeOrder e.1 < typeOrder f.1) rest →
    (∀ t, o = some t → countFor text t = m ∧
      (∀ f ∈ rest, typeOrder t < typeOrder f.1) ∧
      (∀ t', typeOrder t' < typeOrder t → countFor text t' < m)) →
    (∀ t', t' ∉ rest.map Prod.fst → countFor text t' ≤ m) →
    ∀ t, (rest.foldl (selectStep text) (o, m, ks)).1 = some t →
      countFor text t = (rest.foldl (selectStep text) (o, m, ks)).2.1 ∧
      ∀ t', typeOrder t' < typeOrder t →
        countFor text t' < (rest.foldl (selectStep text) (o, m, ks)).2.1 := by
  intro rest
  induction rest with
  | nil =>
    intro o m ks _ _ hsome _ t ht
    obtain ⟨hc, _, hstrict⟩ := hsome t ht
    exact ⟨hc, hstrict⟩
  | cons e rest' ih =>
    intro o m ks hkw hpw hsome hdone t ht
    have hkwe : e.2 = keywordsFor e.1 := hkw e (List.mem_cons_self e rest')
    have hcount_e : (e.2.filter (fun kw => includes text kw)).length = countFor text e.1 := by
      rw [hkwe]; rfl
    obtain ⟨hhead, htail⟩ := List.pairwise_cons.mp hpw
    rw [List.foldl_cons] at ht ⊢
    by_cases hup : m < (e.2.filter (fun kw => includes text kw)).length
    · have hstep : selectStep text (o, m, ks) e =
          (some e.1, (e.2.filter (fun kw => includes text kw)).length,
            ks ++ e.2.filter (fun kw => includes text kw)) := by
        unfold selectStep
        dsimp only
        rw [if_pos hup]
      rw [hstep] at ht ⊢
      refine ih _ _ _ (fun f hf => hkw f (List.mem_cons_of_mem e hf)) htail ?_ ?_ t ht
      · intro t1 ht1
        injection ht1 with ht1
        subst ht1
        refine ⟨hcount_e.symm, hhead, ?_⟩
        intro t' ht'
        have ht'notin : t' ∉ (e :: rest').map Prod.fst := by
          intro hmem
          rcases List.mem_map.mp hmem with ⟨f, hf, hft⟩
          rcases List.mem_cons.mp hf with rfl | hf'
          · rw [hft] at ht'
            exact lt_irrefl _ ht'
          · have := hhead f hf'
            rw [hft] at this
            omega
        have := hdone t' ht'notin
        omega
      · intro t' ht'
        by_cases he1 : t' = e.1
        · rw [he1, ← hcount_e]
        · have ht'notin : t' ∉ (e :: rest').map Prod.fst := by
            intro hmem
            rcases List.mem_map.mp hmem with ⟨f, hf, hft⟩
            rcases List.mem_cons.mp hf with rfl | hf'
            · exact he1 hft.symm
            · exact ht' (by rw [← hft]; exact List.mem_map.mpr ⟨f, hf', rfl⟩)
          have := hdone t' ht'notin
          omega
    · have hstep : selectStep text (o, m, ks) e = (o, m, ks) := by
        unfold selectStep
        rw [if_neg hup]
      rw [hstep] at ht ⊢
      refine ih _ _ _ (fun f hf => hkw f (List.mem_cons_of_mem e hf)) htail ?_ ?_ t ht
      · intro t1 ht1
        obtain ⟨hc, hord, hstrict⟩ := hsome t1 ht1
        exact ⟨hc, fun f hf => hord f (List.mem_cons_of_mem e hf), hstrict⟩
      · intro t' ht'
        by_cases he1 : t' = e.1
        · rw [he1, ← hcount_e]
          omega
        · refine hdone t' ?_
          intro hmem
          rcases List.mem_map.mp hmem with ⟨f, hf, hft⟩
          rcases List.mem_cons.mp hf with rfl | hf'
          · exact he1 hft.symm
          · exact ht' (by rw [← hft]; exact List.mem_map.mpr ⟨f, hf', rfl⟩)

lemma mem_table (t : DType) : (t, keywordsFor t) ∈ disasterKeywords := by
  cases t <;> decide

lemma table_fst (t : DType) : t ∈ disasterKeywords.map Prod.fst := by
  cases t <;> decide

lemma selectDisaster_some_spec (text : List Char) (t : DType)
    (h : (selectDisaster text).1 = some t) :
    countFor text t = (selectDisaster text).2.1 ∧
    ∀ t', typeOrder t' < typeOrder t → countFor text t' < (selectDisaster text).2.1 := by
  refine selectFold_spec text disasterKeywords Option.none 0 [] ?_ ?_ ?_ ?_ t h
  · intro e he
    fin_cases he <;> rfl
  · decide
  · intro t1 h1
    cases h1
  · intro t' h'
    exact absurd (table_fst t') h'

lemma countFor_le_max (text : List Char) (t' : DType) :
    countFor text t' ≤ (selectDisaster text).2.1 :=
  selectFold_le text disasterKeywords (Option.none, 0, []) (t', keywordsFor t') (mem_table t')

lemma selectDisaster_zero (text : List Char) (h : ∀ t, countFor text t = 0) :
    selectDisaster text = (Option.none, 0, []) := by
  refine selectFold_zero text disasterKeywords _ ?_
  intro e he
  have h1 : e.2 = keywordsFor e.1 := by fin_cases he <;> rfl
  rw [h1]
  exact h e.1

lemma analyzePost_isDisasterRelated (so : List Char → ℚ) (r : RandState) (p : Post) :
    (analyzePost so r p).1.isDisasterRelated =
      ((selectDisaster (toLowerList p.text)).1.isSome &&
        decide (0 < (selectDisaster (toLowerList p.text)).2.1)) := rfl

theorem C6_category_selection :
    (∀ text t, (selectDisaster text).1 = some t →
      (∀ t', countFor text t' ≤ countFor text t) ∧
      (∀ t', typeOrder t' < typeOrder t → countFor text t' < countFor text t)) ∧
    (∀ text, (∀ t, countFor text t = 0) → (selectDisaster text).1 = Option.none) ∧
    (∀ so st p, (∀ t, countFor (toLowerList p.text) t = 0) →
      (analyzePost so st.rand p).1.isDisasterRelated = false ∧
      (processPost so st p).alerts = st.alerts ∧
      (processPost so st p).nextId = st.nextId) := by
  refine ⟨?_, ?_, ?_⟩
  · intro text t h
    obtain ⟨hmax, hstrict⟩ := selectDisaster_some_spec text t h
    rw [hmax]
    exact ⟨fun t' => countFor_le_max text t', hstrict⟩
  · intro text h
    rw [selectDisaster_zero text h]
  · intro so st p h
    have hz := selectDisaster_zero (toLowerList p.text) h
    have hrel : (analyzePost so st.rand p).1.isDisasterRelated = false := by
      rw [analyzePost_isDisasterRelated, hz]
      rfl
    refine ⟨hrel, ?_, ?_⟩ <;> simp [processPost, hrel]

def sentW : List Char → ℚ := fun _ => 0

def rngW : RandState := ⟨fun _ => 0, 0⟩

def postHelloW : Post :=
  ⟨"h".toList, "hello world".toList, "a".toList, Option.none, Option.none,
    "t".toList, Platform.twitter⟩

theorem C6_category_selection_witness :
    (∀ t', countFor "flood in mumbai".toList t' ≤
      countFor "flood in mumbai".toList DType.flood) ∧
    (selectDisaster "hello world".toList).1 = Option.none ∧
    (processPost sentW (initState rngW) postHelloW).alerts = (initState rngW).alerts := by
  refine ⟨?_, ?_, ?_⟩
  · exact (C6_category_selection.1 "flood in mumbai".toList DType.flood (by decide)).1
  · exact C6_category_selection.2.1 "hello world".toList (fun t => by cases t <;> decide)
  · exact (C6_category_selection.2.2 sentW (initState rngW) postHelloW
      (fun t => by cases t <;> decide)).2.1

lemma isDisasterRelated_some {so : List Char → ℚ} {r : RandState} {p : Post}
    (h : (analyzePost so r p).1.isDisasterRelated = true) :
    ∃ t, (analyzePost so r p).1.disasterType = some t := by
  rw [analyzePost_isDisasterRelated] at h
  simp only [Bool.and_eq_true] at h
  obtain ⟨hs, _⟩ := h
  have hd : (analyzePost so r p).1.disasterType =
      (selectDisaster (toLowerList p.text)).1 := rfl
  rw [hd]
  exact Option.isSome_iff_exists.mp hs

theorem C1_same_key_single_alert (so : List Char → ℚ) (r : RandState) (p1 p2 : Post)
    (h1 : (analyzePost so r p1).1.isDisasterRelated = true)
    (h2 : (analyzePost so (processPost so (initState r) p1).rand p2).1.isDisasterRelated = true)
    (hty : (analyzePost so (processPost so (initState r) p1).rand p2).1.disasterType =
      (analyzePost so r p1).1.disasterType)
    (hloc : (analyzePost so (processPost so (initState r) p1).rand p2).1.location =
      (analyzePost so r p1).1.location) :
    ∃ k a, (analyzePostsAgg so [p1, p2] (initState r)).alerts = [(k, a)] ∧
      a.reportCount = 2 := by
  obtain ⟨t1, hty1⟩ := isDisasterRelated_some h1
  have hagg : analyzePostsAgg so [p1, p2] (initState r) =
      processPost so (processPost so (initState r) p1) p2 := rfl
  have hst1 : processPost so (initState r) p1 =
      ⟨[(alertKey t1 (analyzePost so r p1).1.location,
          createAlert (initState r) t1 (analyzePost so r p1).1 p1
            (estimateAffectedPopulation (analyzePost so r p1).1.location
              (randNext (analyzePost so r p1).2).2).1)], 1,
        (estimateAffectedPopulation (analyzePost so r p1).1.location
          (randNext (analyzePost so r p1).2).2).2⟩ := by
    simp [processPost, initState, h1, hty1]
  rw [hst1] at h2 hty hloc
  have hty2 : (analyzePost so
      ((⟨[(alertKey t1 (analyzePost so r p1).1.location,
          createAlert (initState r) t1 (analyzePost so r p1).1 p1
            (estimateAffectedPopulation (analyzePost so r p1).1.location
              (randNext (analyzePost so r p1).2).2).1)], 1,
        (estimateAffectedPopulation (analyzePost so r p1).1.location
          (randNext (analyzePost so r p1).2).2).2⟩ : AggState).rand) p2).1.disasterType =
      some t1 := by rw [hty, hty1]
  rw [hagg, hst1]
  refine ⟨alertKey t1 (analyzePost so r p1).1.location,
    mergeAlert (createAlert (initState r) t1 (analyzePost so r p1).1 p1
        (estimateAffectedPopulation (analyzePost so r p1).1.location
          (randNext (analyzePost so r p1).2).2).1)
      (analyzePost so
        (estimateAffectedPopulation (analyzePost so r p1).1.location
          (randNext (analyzePost so r p1).2).2).2 p2).1 p2, ?_, rfl⟩
  simp [processPost, h2, hty2, hloc, updateFirst]

def postFloodW : Post :=
  ⟨"1".toList, "flood in mumbai".toList, "a".toList, Option.none, Option.none,
    "t".toList, Platform.twitter⟩

theorem C1_same_key_single_alert_witness :
    ∃ k a, (analyzePostsAgg sentW [postFloodW, postFloodW] (initState rngW)).alerts =
      [(k, a)] ∧ a.reportCount = 2 :=
  C1_same_key_single_alert sentW rngW postFloodW postFloodW (by decide) (by decide)
    (by decide) (by decide)

lemma head?_append_some {α : Type} {l l' : List α} {q : α} (h : l.head? = some q) :
    (l ++ l').head? = some q := by
  cases l with
  | nil => cases h
  | cons x rest => simpa using h

/-- The provenance property C10 tracks: an alert's urgency level is the one
computed from its first (creating) source post. -/
def provInv (e : List Char × DisasterAlert) : Prop :=
  ∃ q, e.2.sources.head? = some q ∧
    e.2.urgencyLevel = urgencyLevelOf (toLowerList q.text)

lemma provInv_processPost (so : List Char → ℚ) (st : AggState) (p : Post)
    (h : ∀ e ∈ st.alerts, provInv e) :
    ∀ e ∈ (processPost so st p).alerts, provInv e := by
  intro e he
  rcases processPost_shape so st p with ⟨ha, _⟩ | ⟨key, ha, _⟩ | ⟨key, t, pop, _, ha, _⟩
  · rw [ha] at he
    exact h e he
  · rw [ha] at he
    rcases mem_updateFirst he with h1 | ⟨x, hx, hex⟩
    · exact h e h1
    · obtain ⟨q, hq1, hq2⟩ := h x hx
      refine ⟨q, ?_, ?_⟩
      · rw [hex]
        exact head?_append_some hq1
      · rw [hex]
        exact hq2
  · rw [ha] at he
    rcases List.mem_append.mp he with h1 | h1
    · exact h e h1
    · have he2 : e = (key, createAlert st t (analyzePost so st.rand p).1 p pop) := by
        simpa using h1
      refine ⟨p, ?_, ?_⟩ <;> rw [he2] <;> rfl

lemma provInv_agg (so : List Char → ℚ) (posts : List Post) (st : AggState)
    (h : ∀ e ∈ st.alerts, provInv e) :
    ∀ e ∈ (analyzePostsAgg so posts st).alerts, provInv e := by
  induction posts generalizing st with
  | nil => exact h
  | cons q rest ih => exact ih _ (provInv_processPost so st q h)

theorem C10_merge_frame :
    (∀ a an p,
      (mergeAlert a an p).id = a.id ∧
      (mergeAlert a an p).disasterType = a.disasterType ∧
      (mergeAlert a an p).location = a.location ∧
      (mergeAlert a an p).coordinates = a.coordinates ∧
      (mergeAlert a an p).urgencyLevel = a.urgencyLevel ∧
      (mergeAlert a an p).keywords = a.keywords ∧
      (mergeAlert a an p).affectedPopulation = a.affectedPopulation ∧
      (mergeAlert a an p).timestamp = a.timestamp ∧
      (mergeAlert a an p).reportCount = a.reportCount + 1 ∧
      (mergeAlert a an p).sources = a.sources ++ [p] ∧
      (mergeAlert a an p).confidence = min 1 (a.confidence + 0.05) ∧
      (mergeAlert a an p).sentimentScore = (a.sentimentScore + an.sentimentScore) / 2) ∧
    (∀ so r posts, (analyzePostsAgg so posts (initState r)).alerts.Forall provInv) := by
  constructor
  · intro a an p
    exact ⟨rfl, rfl, rfl, rfl, rfl, rfl, rfl, rfl, rfl, rfl, rfl, rfl⟩
  · intro so r posts
    rw [List.forall_iff_forall_mem]
    exact provInv_agg so posts (initState r) (by intro e he; simp [initState] at he)

/-- The output order C2 asserts: strictly greater confidence first, and on
equal confidence the smaller creation rank (id) first. -/
def confOrder (a b : DisasterAlert) : Prop :=
  b.confidence < a.confidence ∨ (a.confidence = b.confidence ∧ a.id < b.id)

lemma pairwise_insertDesc (a : DisasterAlert) (l : List DisasterAlert)
    (hl : l.Pairwise confOrder) (ha : ∀ b ∈ l, a.id < b.id) :
    (insertDesc a l).Pairwise confOrder := by
  induction l with
  | nil => simp [insertDesc]
  | cons b rest ih =>
    obtain ⟨hb, hrest⟩ := List.pairwise_cons.mp hl
    unfold insertDesc
    split_ifs with hc
    · refine List.pairwise_cons.mpr ⟨?_, hl⟩
      intro c hc2
      rcases List.mem_cons.mp hc2 with rfl | hcr
      · rcases lt_or_eq_of_le hc with hlt | heq
        · exact Or.inl hlt
        · exact Or.inr ⟨heq.symm, ha _ (List.mem_cons_self _ _)⟩
      · rcases hb c hcr with hlt | ⟨heq, _⟩
        · exact Or.inl (lt_of_lt_of_le hlt hc)
        · rcases lt_or_eq_of_le hc with hlt2 | heq2
          · exact Or.inl (heq ▸ hlt2)
          · exact Or.inr ⟨by rw [← heq2, heq], ha c (List.mem_cons_of_mem b hcr)⟩
    · refine List.pairwise_cons.mpr
        ⟨?_, ih hrest (fun x hx => ha x (List.mem_cons_of_mem b hx))⟩
      intro c hc2
      have hmem := (insertDesc_perm a rest).mem_iff.mp hc2
      rcases List.mem_cons.mp hmem with rfl | hcr
      · exact Or.inl (lt_of_not_le hc)
      · exact hb c hcr

lemma pairwise_sortDesc (l : List DisasterAlert)
    (h : l.Pairwise (fun a b => a.id < b.id)) :
    (sortDesc l).Pairwise confOrder := by
  induction l with
  | nil => simp [sortDesc]
  | cons a rest ih =>
    obtain ⟨hfst, hrest⟩ := List.pairwise_cons.mp h
    exact pairwise_insertDesc a (sortDesc rest) (ih hrest)
      (fun b hb => hfst b ((sortDesc_perm rest).mem_iff.mp hb))

/-- The id bookkeeping of the aggregator: alerts sit in the map in strictly
increasing creation order, and every id is below the next counter value. -/
def idInv (st : AggState) : Prop :=
  st.alerts.Pairwise (fun e f => e.2.id < f.2.id) ∧
    ∀ e ∈ st.alerts, e.2.id < st.nextId

lemma updateFirst_pairwise_id {l : List (List Char × DisasterAlert)}
    {k : List Char} {f : DisasterAlert → DisasterAlert}
    (hf : ∀ a, (f a).id = a.id)
    (hp : l.Pairwise (fun e g => e.2.id < g.2.id)) :
    (updateFirst l k f).Pairwise (fun e g => e.2.id < g.2.id) := by
  induction l with
  | nil => exact hp
  | cons x rest ih =>
    obtain ⟨hx, hrest⟩ := List.pairwise_cons.mp hp
    unfold updateFirst
    split_ifs with hk
    · refine List.pairwise_cons.mpr ⟨?_, hrest⟩
      intro y hy
      rw [hf]
      exact hx y hy
    · refine List.pairwise_cons.mpr ⟨?_, ih hrest⟩
      intro y hy
      rcases mem_updateFirst hy with h1 | ⟨z, hz, hyz⟩
      · exact hx y h1
      · rw [hyz]
        have : (z.1, f z.2).2.id = z.2.id := hf z.2
        rw [this]
        exact hx z hz

lemma updateFirst_id_bound {l : List (List Char × DisasterAlert)}
    {k : List Char} {f : DisasterAlert → DisasterAlert} {n : ℕ}
    (hf : ∀ a, (f a).id = a.id)
    (hb : ∀ e ∈ l, e.2.id < n) :
    ∀ e ∈ updateFirst l k f, e.2.id < n := by
  intro e he
  rcases mem_updateFirst he with h1 | ⟨z, hz, hez⟩
  · exact hb e h1
  · rw [hez]
    have : (z.1, f z.2).2.id = z.2.id := hf z.2
    rw [this]
    exact hb z hz

lemma mergeAlert_id (a : DisasterAlert) (an : PostAnalysis) (p : Post) :
    (mergeAlert a an p).id = a.id := rfl

lemma idInv_processPost (so : List Char → ℚ) (st : AggState) (p : Post)
    (h : idInv st) : idInv (processPost so st p) := by
  obtain ⟨hp, hb⟩ := h
  rcases processPost_shape so st p with ⟨ha, hn⟩ | ⟨key, ha, hn⟩ |
    ⟨key, t, pop, _, ha, hn⟩
  · rw [idInv, ha, hn]
    exact ⟨hp, hb⟩
  · rw [idInv, ha, hn]
    constructor
    · exact updateFirst_pairwise_id (fun a => mergeAlert_id a _ _) hp
    · exact updateFirst_id_bound (fun a => mergeAlert_id a _ _) hb
  · rw [idInv, ha, hn]
    constructor
    · rw [List.pairwise_append]
      refine ⟨hp, List.pairwise_singleton _ _, ?_⟩
      intro x hx y hy
      have hyc : y = (key, createAlert st t (analyzePost so st.rand p).1 p pop) := by
        simpa using hy
      rw [hyc]
      exact hb x hx
    · intro e he
      rcases List.mem_append.mp he with h1 | h1
      · exact Nat.lt_succ_of_lt (hb e h1)
      · have he2 : e = (key, createAlert st t (analyzePost so st.rand p).1 p pop) := by
          simpa using h1
        rw [he2]
        exact Nat.lt_succ_self _
  
lemma idInv_agg (so : List Char → ℚ) (posts : List Post) (st : AggState)
    (h : idInv st) : idInv (analyzePostsAgg so posts st) := by
  induction posts generalizing st with
  | nil => exact h
  | cons q rest ih => exact ih _ (idInv_processPost so st q h)

/-- C2: the published list contains exactly the aggregated alerts passing the
filter reportCount ≥ 2 ∨ urgency critical, in descending confidence with ties
in creation (insertion) order. -/
theorem C2_publication_filter_and_order (so : List Char → ℚ) (r : RandState)
    (posts : List Post) :
    (∀ a, a ∈ analyzePosts so r posts ↔
      (a ∈ (analyzePostsAgg so posts (initState r)).alerts.map Prod.snd ∧
        (2 ≤ a.reportCount ∨ a.urgencyLevel = Urgency.critical))) ∧
    (analyzePosts so r posts).Pairwise confOrder := by
  constructor
  · intro a
    constructor
    · intro ha
      have h1 : a ∈ ((analyzePostsAgg so posts (initState r)).alerts.map
          Prod.snd).filter publishFilter := (sortDesc_perm _).mem_iff.mp ha
      obtain ⟨hm, hf⟩ := List.mem_filter.mp h1
      refine ⟨hm, ?_⟩
      simpa [publishFilter] using hf
    · intro ⟨hm, hf⟩
      refine (sortDesc_perm _).mem_iff.mpr (List.mem_filter.mpr ⟨hm, ?_⟩)
      simpa [publishFilter] using hf
  · have hinv := idInv_agg so posts (initState r)
      ⟨List.Pairwise.nil, by intro e he; simp [initState] at he⟩
    have hmap : ((analyzePostsAgg so posts (initState r)).alerts.map
        Prod.snd).Pairwise (fun a b => a.id < b.id) := by
      rw [List.pairwise_map]
      exact hinv.1
    have hfil : (((analyzePostsAgg so posts (initState r)).alerts.map
        Prod.snd).filter publishFilter).Pairwise (fun a b => a.id < b.id) :=
      List.Pairwise.sublist (List.filter_sublist _) hmap
    exact pairwise_sortDesc _ hfil
